import Mathlib

/-!
Verification of the habit-tracker text-to-progress extraction engine and of
the frontend rendering / offline-caching helpers.

The extraction engine (orchestrator, heuristic parser, AI-assisted parser)
is only described by the specification; the repository sources contain its
frontend callers.  The engine is therefore modelled from the spec, as noted
on each definition.  The rendering and service-worker definitions are
translated directly from `src/unnamed/part_000` (`renderHabits`) and
`src/frontend/service-worker.js` (the fetch listener).
-/

namespace HabitApp

/-- Modelled from the spec: the four fixed day segments of §3 / glossary. -/
inductive TimeBlock
  | morning
  | afternoon
  | evening
  | night
deriving DecidableEq

/-- Modelled from the spec: `HabitRef` of §3, the catalog entry
`(id, name, time_block, target_minutes)`. -/
structure HabitRef where
  id : Nat
  name : String
  time_block : TimeBlock
  target_minutes : Nat
deriving DecidableEq

/-- Modelled from the spec: `MinuteContribution` of §3. -/
structure MinuteContribution where
  habit_id : Nat
  minutes : Nat
deriving DecidableEq

/-- Modelled from the spec: the `source` tag of `ExtractionResult` (§3). -/
inductive Source
  | heuristic
  | ai
deriving DecidableEq

/-- Modelled from the spec: `ExtractionResult` of §3. -/
structure ExtractionResult where
  contributions : List MinuteContribution
  source : Source
  warnings : List String
deriving DecidableEq

/-- Modelled from the spec: the fatal input-validation fault of §7
(`text` is not a string, or `habits` is empty). -/
inductive InvalidInputError
  | textNotString
  | habitsEmpty
deriving DecidableEq

/-- Modelled from the spec: the recoverable AI-call fault classes of §4.2/§7
(network fault, non-2xx response, malformed body, timeout). -/
inductive ExternalServiceError
  | network
  | nonSuccessStatus
  | malformedBody
  | timeout
deriving DecidableEq

/-- Modelled from the spec: the dynamically-typed `text` field of the caller
input (§6); §4.3 requires rejecting a non-string `text`. -/
inductive InputText
  | str (s : String)
  | nonStr
deriving DecidableEq

/-! ### Text normalization (§4.1 step 1: lowercase, collapse whitespace) -/

/-- Modelled from the spec: lowercase the raw text (§4.1 step 1), working on
the character list so that everything reduces in the kernel. -/
def lowerData (s : String) : List Char :=
  s.data.map Char.toLower

/-- Splits a character list on whitespace, dropping empty fragments; the
accumulator holds the token being built. -/
def splitWSAux : List Char → List Char → List (List Char)
  | [], acc => if acc = [] then [] else [acc]
  | c :: cs, acc =>
      if c.isWhitespace then
        if acc = [] then splitWSAux cs [] else acc :: splitWSAux cs []
      else
        splitWSAux cs (acc ++ [c])

/-- Modelled from the spec: whitespace collapsing (§4.1 step 1) realised as
tokenization: the token list of a character list. -/
def splitWS (cs : List Char) : List (List Char) :=
  splitWSAux cs []

/-- Modelled from the spec: the normalized token sequence of a text
(§4.1 step 1): lowercase, whitespace-collapsed. -/
def normalizeTokens (s : String) : List (List Char) :=
  splitWS (lowerData s)

/-! ### Duration expressions (§4.1 step 3) -/

/-- Modelled from the spec: spelled-out number words below twenty. -/
def numberWordsSmall : List (String × Nat) :=
  [("one", 1), ("two", 2), ("three", 3), ("four", 4), ("five", 5),
   ("six", 6), ("seven", 7), ("eight", 8), ("nine", 9), ("ten", 10),
   ("eleven", 11), ("twelve", 12), ("thirteen", 13), ("fourteen", 14),
   ("fifteen", 15), ("sixteen", 16), ("seventeen", 17), ("eighteen", 18),
   ("nineteen", 19)]

/-- Modelled from the spec: spelled-out tens words. -/
def numberWordsTens : List (String × Nat) :=
  [("twenty", 20), ("thirty", 30), ("forty", 40), ("fifty", 50),
   ("sixty", 60), ("seventy", 70), ("eighty", 80), ("ninety", 90)]

/-- Looks a token up in a number-word table. -/
def lookupNumberWord (tbl : List (String × Nat)) (tok : List Char) : Option Nat :=
  (tbl.find? (fun p => p.1.data == tok)).map (fun p => p.2)

/-- Splits a character list on a separator character, keeping fragments. -/
def splitOnCharAux (sep : Char) : List Char → List Char → List (List Char)
  | [], acc => [acc]
  | c :: cs, acc =>
      if c = sep then acc :: splitOnCharAux sep cs []
      else splitOnCharAux sep cs (acc ++ [c])

/-- Splits a token on a separator character (used for hyphenated numbers). -/
def splitOnChar (sep : Char) (cs : List Char) : List (List Char) :=
  splitOnCharAux sep cs []

/-- Modelled from the spec: spelled-out one-to-ninety-nine (§4.1 step 3),
including hyphenated compounds such as twenty-one. -/
def parseNumberWord (tok : List Char) : Option Nat :=
  match lookupNumberWord numberWordsSmall tok with
  | some n => some n
  | none =>
    match lookupNumberWord numberWordsTens tok with
    | some n => some n
    | none =>
      match splitOnChar '-' tok with
      | [a, b] =>
        match lookupNumberWord numberWordsTens a, lookupNumberWord numberWordsSmall b with
        | some t, some u => if u ≤ 9 then some (t + u) else none
        | _, _ => none
      | _ => none

/-- Numeric value of a digit token. -/
def digitsVal (tok : List Char) : Nat :=
  tok.foldl (fun n c => 10 * n + (c.toNat - 48)) 0

/-- Modelled from the spec: a number token, digit or spelled-out
(§4.1 step 3). -/
def parseNumberToken (tok : List Char) : Option Nat :=
  if tok ≠ [] ∧ tok.all (fun c => c.isDigit) then some (digitsVal tok)
  else parseNumberWord tok

/-- Modelled from the spec: the unit tokens of §4.1 step 3 and their
minute multipliers (hours convert at sixty). -/
def unitMinutes (tok : List Char) : Option Nat :=
  if tok = "minute".data ∨ tok = "minutes".data ∨ tok = "min".data ∨ tok = "mins".data then
    some 1
  else if tok = "hour".data ∨ tok = "hours".data ∨ tok = "hr".data ∨ tok = "hrs".data then
    some 60
  else none

/-- Modelled from the spec: every duration expression in a token window —
a number immediately followed by a unit token (§4.1 step 3). -/
def durationsInWindow : List (List Char) → List Nat
  | a :: b :: rest =>
      (match parseNumberToken a, unitMinutes b with
       | some n, some m => [n * m]
       | _, _ => []) ++ durationsInWindow (b :: rest)
  | _ => []

/-- Modelled from the spec: the neighborhood of a match is bounded to
±12 tokens (§4.1 step 3). -/
def windowSize : Nat := 12

/-- Modelled from the spec: the durations found within ±12 tokens of
position `p` (§4.1 step 3). -/
def durationsNear (toks : List (List Char)) (p : Nat) : List Nat :=
  durationsInWindow ((toks.drop (p - windowSize)).take (2 * windowSize + 1))

/-! ### Habit-name matching (§4.1 step 2) -/

/-- Modelled from the spec: the matching view of a habit name —
case-insensitive and whitespace-normalized (§3). -/
def habitNameTokens (h : HabitRef) : List (List Char) :=
  normalizeTokens h.name

/-- First token position at which `pat` occurs contiguously in the token
list, if any. -/
def firstInfixPosAux (pat : List (List Char)) : List (List Char) → Nat → Option Nat
  | [], _ => none
  | t :: ts, i =>
      if pat.isPrefixOf (t :: ts) then some i
      else firstInfixPosAux pat ts (i + 1)

/-- Modelled from the spec: exact (token-level) substring match of the habit
name against the text, highest priority (§4.1 step 2). -/
def firstInfixPos (pat : List (List Char)) (toks : List (List Char)) : Option Nat :=
  firstInfixPosAux pat toks 0

/-- Number of habit-name words present in a token window. -/
def overlapHits (pat window : List (List Char)) : Nat :=
  (pat.filter (fun w => window.contains w)).length

/-- Modelled from the spec: token-overlap matching (§4.1 step 2) — the name
matches at the earliest position carrying one of its words where at least
half of the name's words occur within a bounded token distance. -/
def fuzzyPosAux (pat : List (List Char)) : List (List Char) → Nat → Option Nat
  | [], _ => none
  | t :: ts, i =>
      if pat.contains t ∧ pat.length ≤ 2 * overlapHits pat ((t :: ts).take windowSize) then
        some i
      else fuzzyPosAux pat ts (i + 1)

/-- Modelled from the spec: the match position of a habit in the token list —
exact substring match first, else token overlap (§4.1 step 2). -/
def matchHabit (toks : List (List Char)) (h : HabitRef) : Option Nat :=
  let pat := habitNameTokens h
  if pat = [] then none
  else
    match firstInfixPos pat toks with
    | some i => some i
    | none => fuzzyPosAux pat toks 0

/-- Modelled from the spec: a matched habit together with its first-mention
position in the text (§4.1 steps 2 and 5). -/
structure HMatch where
  habit : HabitRef
  pos : Nat
deriving DecidableEq

/-- Modelled from the spec: all matched habits, one entry per catalog habit
(§4.1 step 2; each habit appears at most once, step 4). -/
def heuristicMatches (toks : List (List Char)) (habits : List HabitRef) : List HMatch :=
  habits.filterMap (fun h => (matchHabit toks h).map (fun p => ⟨h, p⟩))

/-- Ordering of matches: earlier mention first; at equal positions the longer
(more specific) habit name wins (§4.1 steps 2 and 5). -/
def insertMatch (x : HMatch) : List HMatch → List HMatch
  | [] => [x]
  | y :: ys =>
      if x.pos < y.pos ∨ (x.pos = y.pos ∧ y.habit.name.length ≤ x.habit.name.length) then
        x :: y :: ys
      else
        y :: insertMatch x ys

/-- Modelled from the spec: output order follows first-mention order in the
text (§4.1 step 5), realised as an insertion sort on match position. -/
def sortMatches : List HMatch → List HMatch
  | [] => []
  | x :: xs => insertMatch x (sortMatches xs)

/-! ### Heuristic parser (§4.1) -/

/-- Modelled from the spec: the warning appended when no habit name matches
anything in a non-empty text (§4.1 edge cases). -/
def zeroMatchWarning : String :=
  "no habit names matched the text"

/-- Modelled from the spec: the warning appended when a matched habit has no
duration expression nearby (§4.1 step 3). -/
def skipWarning (name : String) : String :=
  "no duration found near habit: " ++ name

/-- Modelled from the spec: the contribution of one matched habit — the sum
of the durations found near it, or nothing when none is found
(§4.1 steps 3 and 4). -/
def heuristicContribution (toks : List (List Char)) (m : HMatch) : Option MinuteContribution :=
  if durationsNear toks m.pos = [] then none
  else some ⟨m.habit.id, (durationsNear toks m.pos).sum⟩

/-- Modelled from the spec: the skip warning of one matched habit with no
nearby duration (§4.1 step 3). -/
def heuristicSkipWarning (toks : List (List Char)) (m : HMatch) : Option String :=
  if durationsNear toks m.pos = [] then some (skipWarning m.habit.name) else none

/-- Modelled from the spec: the Heuristic Parser of §4.1 — contributions and
warnings from a text and a habit catalog.  Empty text yields an empty result
with no warnings; zero matches on a non-empty text yield a warning. -/
def heuristicParse (text : String) (habits : List HabitRef) :
    List MinuteContribution × List String :=
  if text = "" then ([], [])
  else
    let toks := normalizeTokens text
    if heuristicMatches toks habits = [] then ([], [zeroMatchWarning])
    else
      let ms := sortMatches (heuristicMatches toks habits)
      (ms.filterMap (heuristicContribution toks), ms.filterMap (heuristicSkipWarning toks))

/-! ### AI-assisted parser (§4.2) -/

/-- Modelled from the spec: the external structured-completion service's
visible outcome for one call — a fault, or a JSON object rendered as a list
of (habit name, integer minutes) entries (§4.2). -/
inductive AiOutcome
  | failure (e : ExternalServiceError)
  | response (entries : List (String × Int))
deriving DecidableEq

/-- Modelled from the spec: exact name lookup translating an AI response key
back to a HabitRef (§4.2). -/
def aiLookup (habits : List HabitRef) (key : String) : Option HabitRef :=
  habits.find? (fun h => h.name == key)

/-- Modelled from the spec: the warning recorded for an AI response key that
matches no known habit name (§4.2, §7 partial-validation warning). -/
def unknownKeyWarning (key : String) : String :=
  "ai returned unknown habit name: " ++ key

/-- Modelled from the spec: translation of a well-formed AI response —
one contribution per recognized entry, unknown keys dropped with a warning
(§4.2). -/
def aiTranslate (habits : List HabitRef) (entries : List (String × Int)) :
    List MinuteContribution × List String :=
  (entries.filterMap (fun e => (aiLookup habits e.1).map (fun h => ⟨h.id, e.2.toNat⟩)),
   entries.filterMap (fun e =>
     if aiLookup habits e.1 = none then some (unknownKeyWarning e.1) else none))

/-- Modelled from the spec: the AI-Assisted Parser of §4.2 — fails with
`ExternalServiceError` on a service fault or a negative value, otherwise
translates the response. -/
def aiAttempt (habits : List HabitRef) (ai : AiOutcome) :
    Except ExternalServiceError (List MinuteContribution × List String) :=
  match ai with
  | .failure e => .error e
  | .response entries =>
      if entries.any (fun e => e.2 < 0) then .error .malformedBody
      else .ok (aiTranslate habits entries)

/-! ### Extraction orchestrator (§4.3) -/

/-- Modelled from the spec: the fallback warning recording that the AI path
failed and why — the error class, not raw exception text (§4.3). -/
def aiFailureWarning (e : ExternalServiceError) : String :=
  "ai extraction failed: " ++
    (match e with
     | .network => "network fault"
     | .nonSuccessStatus => "non-2xx response"
     | .malformedBody => "malformed response body"
     | .timeout => "timeout")

/-- Modelled from the spec: the Extraction Orchestrator `extract` of §4.3.
Validation failures surface as `InvalidInputError` before either parser runs;
empty text is a no-op (§3); without a credential the heuristic path runs;
with one, AI success is authoritative and any `ExternalServiceError` falls
back to the heuristic result plus a warning.  The return type records the
propagation policy of §7: only `InvalidInputError` can reach the caller as a
failure. -/
def extract (text : InputText) (habits : List HabitRef) (credential : Option String)
    (ai : AiOutcome) : Except InvalidInputError ExtractionResult :=
  match text with
  | .nonStr => .error .textNotString
  | .str s =>
      if habits = [] then .error .habitsEmpty
      else if s = "" then .ok ⟨[], .heuristic, []⟩
      else
        match credential with
        | none =>
            .ok ⟨(heuristicParse s habits).1, .heuristic, (heuristicParse s habits).2⟩
        | some _ =>
            match aiAttempt habits ai with
            | .ok res => .ok ⟨res.1, .ai, res.2⟩
            | .error e =>
                .ok ⟨(heuristicParse s habits).1, .heuristic,
                     (heuristicParse s habits).2 ++ [aiFailureWarning e]⟩

/-! ### Frontend rendering (src/unnamed/part_000, `renderHabits`) -/

/-- One entry of the `/progress/bars/<date>` response consumed by
`renderHabits` (src/unnamed/part_000 lines 49-54). -/
structure BarInfo where
  habit_id : Nat
  progress_ratio : ℚ
deriving DecidableEq

/-- The `ratioMap` built by `renderHabits` (lines 51-54): each bar entry
overwrites the slot of its `habit_id`, later entries winning. -/
def buildRatioMap (bars : List BarInfo) : Nat → Option ℚ :=
  bars.foldl (fun m b => fun k => if k = b.habit_id then some b.progress_ratio else m k)
    (fun _ => none)

/-- The data content of one rendered habit item (lines 56-71): header text
and the progress-fill width in percent. -/
structure RenderedHabit where
  name : String
  time_block : TimeBlock
  widthPercent : ℚ
deriving DecidableEq

/-- One habit item as built by the `habits.forEach` body of `renderHabits`
(lines 56-71): `ratio = ratioMap[habit.id] || 0` and the fill width is
`ratio * 100` percent. -/
def renderHabitItem (bars : List BarInfo) (h : HabitRef) : RenderedHabit :=
  ⟨h.name, h.time_block, (buildRatioMap bars h.id).getD 0 * 100⟩

/-- `renderHabits` (lines 46-73): one rendered item per fetched habit, in
catalog order. -/
def renderHabits (habits : List HabitRef) (bars : List BarInfo) : List RenderedHabit :=
  habits.map (renderHabitItem bars)

/-! ### Service worker fetch handling (src/frontend/service-worker.js) -/

/-- A fetch-event request, identified by its URL. -/
structure SwRequest where
  url : String
deriving DecidableEq

/-- A response served to a fetch event. -/
structure SwResponse where
  body : String
deriving DecidableEq

/-- The fetch listener of `service-worker.js` (lines 49-56):
`caches.match(event.request).then((response) => response || fetch(event.request))`.
The boolean records whether the network was consulted; the `||` short-circuit
means a cache hit never reaches `fetch`. -/
def swHandleFetch (cacheMatch : SwRequest → Option SwResponse)
    (networkFetch : SwRequest → SwResponse) (req : SwRequest) : SwResponse × Bool :=
  match cacheMatch req with
  | some r => (r, false)
  | none => (networkFetch req, true)

/-! ### Sample data used by concrete witnesses -/

/-- A sample catalog habit. -/
def sampleYoga : HabitRef := ⟨1, "Morning Yoga", .morning, 20⟩

/-- A second sample catalog habit. -/
def sampleReading : HabitRef := ⟨2, "Reading", .evening, 30⟩

/-! ### Helper lemmas -/

theorem mem_insertMatch {x a : HMatch} {l : List HMatch} :
    a ∈ insertMatch x l ↔ a = x ∨ a ∈ l := by
  induction l with
  | nil => simp [insertMatch]
  | cons y ys ih =>
      by_cases hc : x.pos < y.pos ∨ (x.pos = y.pos ∧ y.habit.name.length ≤ x.habit.name.length)
      · simp [insertMatch, hc]
      · simp only [insertMatch, if_neg hc, List.mem_cons, ih]
        tauto

theorem mem_sortMatches {a : HMatch} {l : List HMatch} :
    a ∈ sortMatches l ↔ a ∈ l := by
  induction l with
  | nil => simp [sortMatches]
  | cons y ys ih => simp [sortMatches, mem_insertMatch, ih]

theorem mem_heuristicMatches {toks : List (List Char)} {habits : List HabitRef} {m : HMatch} :
    m ∈ heuristicMatches toks habits ↔
      ∃ h ∈ habits, matchHabit toks h = some m.pos ∧ m.habit = h := by
  constructor
  · intro hm
    rcases List.mem_filterMap.mp hm with ⟨h, hh, hmap⟩
    rcases Option.map_eq_some'.mp hmap with ⟨p, hp, hpm⟩
    subst hpm
    exact ⟨h, hh, hp, rfl⟩
  · rintro ⟨h, hh, hp, hm⟩
    refine List.mem_filterMap.mpr ⟨h, hh, ?_⟩
    rw [hp]
    cases m with
    | mk habit pos => cases hm; rfl

theorem heuristicContribution_eq_some {toks : List (List Char)} {m : HMatch}
    {c : MinuteContribution} (h : heuristicContribution toks m = some c) :
    durationsNear toks m.pos ≠ [] ∧ c.habit_id = m.habit.id := by
  unfold heuristicContribution at h
  split at h
  · exact absurd h (by simp)
  · rename_i hd
    cases h
    exact ⟨hd, rfl⟩

/-- Every contribution of the heuristic parser carries the id of a catalog
habit. -/
theorem heuristic_ids {s : String} {habits : List HabitRef} {c : MinuteContribution}
    (hc : c ∈ (heuristicParse s habits).1) :
    c.habit_id ∈ habits.map (fun h => h.id) := by
  by_cases hs : s = ""
  · simp [heuristicParse, hs] at hc
  · by_cases hm : heuristicMatches (normalizeTokens s) habits = []
    · simp [heuristicParse, hs, hm] at hc
    · simp only [heuristicParse, if_neg hs, if_neg hm] at hc
      rcases List.mem_filterMap.mp hc with ⟨m, hm1, hm2⟩
      have hm1' : m ∈ heuristicMatches (normalizeTokens s) habits := mem_sortMatches.mp hm1
      rcases mem_heuristicMatches.mp hm1' with ⟨h, hh, _, hmh⟩
      rcases heuristicContribution_eq_some hm2 with ⟨_, hid⟩
      exact List.mem_map.mpr ⟨h, hh, by rw [← hmh, ← hid]⟩

/-- A non-empty text on which the heuristic parser produces no contribution
always produces a warning. -/
theorem heuristic_empty_warn {s : String} {habits : List HabitRef} (hs : s ≠ "")
    (h0 : (heuristicParse s habits).1 = []) :
    (heuristicParse s habits).2 ≠ [] := by
  by_cases hm : heuristicMatches (normalizeTokens s) habits = []
  · simp [heuristicParse, hs, hm]
  · rcases List.exists_mem_of_ne_nil _ hm with ⟨m, hmem⟩
    have hmem' : m ∈ sortMatches (heuristicMatches (normalizeTokens s) habits) :=
      mem_sortMatches.mpr hmem
    simp only [heuristicParse, if_neg hs, if_neg hm] at h0 ⊢
    have hnone := List.filterMap_eq_nil_iff.mp h0 m hmem'
    unfold heuristicContribution at hnone
    split at hnone
    · rename_i hd
      have hw : heuristicSkipWarning (normalizeTokens s) m = some (skipWarning m.habit.name) := by
        simp [heuristicSkipWarning, hd]
      exact List.ne_nil_of_mem (List.mem_filterMap.mpr ⟨m, hmem', hw⟩)
    · exact absurd hnone (by simp)

/-- Every contribution translated from an AI response carries the id of a
catalog habit. -/
theorem aiTranslate_ids {habits : List HabitRef} {entries : List (String × Int)}
    {c : MinuteContribution} (hc : c ∈ (aiTranslate habits entries).1) :
    c.habit_id ∈ habits.map (fun h => h.id) := by
  rcases List.mem_filterMap.mp hc with ⟨e, _, hmap⟩
  rcases Option.map_eq_some'.mp hmap with ⟨h, hfind, hch⟩
  have hmem : h ∈ habits := List.mem_of_find?_eq_some hfind
  exact List.mem_map.mpr ⟨h, hmem, by rw [← hch]⟩

/-- Modelled from the spec: the failure context of §7 on the AI path — some
response entry whose key matches no known habit name was rejected. -/
def aiRejectedKey (habits : List HabitRef) (ai : AiOutcome) : Prop :=
  match ai with
  | .failure _ => False
  | .response entries => ∃ e ∈ entries, aiLookup habits e.1 = none

/-! ### Claim theorems -/

/-- C1: whenever the AI-Assisted Parser fails with an `ExternalServiceError`
(including timeout), `extract` returns the Heuristic Parser's result tagged
`source: heuristic` together with a warning recording the failure class, and
no failure is surfaced; the return type `Except InvalidInputError _` records
that only `InvalidInputError` can ever reach the caller as a failure. -/
theorem extract_ai_failure_falls_back (s : String) (habits : List HabitRef) (k : String)
    (e : ExternalServiceError) (h1 : habits ≠ []) (h2 : s ≠ "") :
    extract (.str s) habits (some k) (.failure e) =
      .ok ⟨(heuristicParse s habits).1, .heuristic,
           (heuristicParse s habits).2 ++ [aiFailureWarning e]⟩ := by
  simp [extract, h1, h2, aiAttempt]

/-- Witness for C1 at a concrete input. -/
theorem extract_ai_failure_falls_back_witness :
    extract (.str "hello") [sampleReading] (some "key") (.failure .timeout) =
      .ok ⟨(heuristicParse "hello" [sampleReading]).1, .heuristic,
           (heuristicParse "hello" [sampleReading]).2 ++ [aiFailureWarning .timeout]⟩ :=
  extract_ai_failure_falls_back "hello" [sampleReading] "key" .timeout (by decide) (by decide)

/-- C2: every `habit_id` appearing in the contributions of a successful
`extract` call is the id of some habit of the catalog passed in for that
call, on the heuristic path and on the AI path alike. -/
theorem extract_ids_subset_catalog (t : InputText) (habits : List HabitRef)
    (cred : Option String) (ai : AiOutcome) (r : ExtractionResult)
    (hok : extract t habits cred ai = .ok r) :
    ∀ c ∈ r.contributions, c.habit_id ∈ habits.map (fun h => h.id) := by
  cases t with
  | nonStr => simp [extract] at hok
  | str s =>
      by_cases h1 : habits = []
      · simp [extract, h1] at hok
      · by_cases h2 : s = ""
        · simp only [extract, if_neg h1, if_pos h2] at hok
          cases hok
          intro c hc
          simp at hc
        · cases cred with
          | none =>
              simp only [extract, if_neg h1, if_neg h2] at hok
              cases hok
              intro c hc
              exact heuristic_ids hc
          | some key =>
              cases hai : aiAttempt habits ai with
              | error e =>
                  simp only [extract, if_neg h1, if_neg h2, hai] at hok
                  cases hok
                  intro c hc
                  exact heuristic_ids hc
              | ok res =>
                  simp only [extract, if_neg h1, if_neg h2, hai] at hok
                  cases hok
                  intro c hc
                  cases ai with
                  | failure e => simp [aiAttempt] at hai
                  | response entries =>
                      by_cases hneg : entries.any (fun e => e.2 < 0)
                      · simp [aiAttempt, hneg] at hai
                      · simp only [aiAttempt, if_neg hneg, Except.ok.injEq] at hai
                        subst hai
                        exact aiTranslate_ids hc

/-- Witness for C2 at a concrete input. -/
theorem extract_ids_subset_catalog_witness :
    (MinuteContribution.mk 2 30).habit_id ∈
      [sampleYoga, sampleReading].map (fun h => h.id) :=
  extract_ids_subset_catalog (.str "I did 30 minutes of Reading today")
    [sampleYoga, sampleReading] none (.response [])
    ⟨[⟨2, 30⟩], .heuristic, []⟩ rfl ⟨2, 30⟩ (by decide)

/-- C3 counterexample: a call with empty text and an empty habit catalog does
raise a failure — input validation fails fast before the empty-text no-op —
so the claim as stated (no failure for every empty-text call) is false. -/
theorem extract_empty_text_can_fail :
    extract (.str "") [] none (.response []) = .error .habitsEmpty := rfl

/-- C3 (amended): for every call to `extract` with an empty text string and a
non-empty habit catalog, the result has an empty contributions sequence, an
empty warnings sequence, and no failure is raised. -/
theorem extract_empty_text_ok (habits : List HabitRef) (cred : Option String)
    (ai : AiOutcome) (h : habits ≠ []) :
    extract (.str "") habits cred ai = .ok ⟨[], .heuristic, []⟩ := by
  simp [extract, h]

/-- Witness for the amended C3 at a concrete input. -/
theorem extract_empty_text_ok_witness :
    extract (.str "") [sampleReading] none (.response []) = .ok ⟨[], .heuristic, []⟩ :=
  extract_empty_text_ok [sampleReading] none (.response []) (by decide)

/-- C4: whenever the text is not a string or the habit catalog is empty,
`extract` fails with `InvalidInputError`; the conclusion holds for every AI
outcome and credential, so neither parser's behavior is consulted. -/
theorem extract_invalid_input_fails (t : InputText) (habits : List HabitRef)
    (cred : Option String) (ai : AiOutcome) (h : t = .nonStr ∨ habits = []) :
    extract t habits cred ai =
      .error (if t = .nonStr then .textNotString else .habitsEmpty) := by
  cases t with
  | nonStr => simp [extract]
  | str s =>
      rcases h with h | h
      · exact absurd h (by simp)
      · subst h
        simp [extract]

/-- Witness for C4 at a concrete input. -/
theorem extract_invalid_input_fails_witness :
    extract .nonStr [sampleReading] none (.response []) =
      .error (if InputText.nonStr = .nonStr then .textNotString else .habitsEmpty) :=
  extract_invalid_input_fails .nonStr [sampleReading] none (.response []) (Or.inl rfl)

/-- C5: a habit matched by the Heuristic Parser with no duration expression
within ±12 tokens of the match is absent from the output contributions — no
invented minutes value is emitted for it — and a skip warning is appended. -/
theorem heuristic_no_duration_skipped (s : String) (habits : List HabitRef)
    (h : HabitRef) (p : Nat) (hs : s ≠ "") (hmem : h ∈ habits)
    (hnodup : (habits.map (fun x => x.id)).Nodup)
    (hmatch : matchHabit (normalizeTokens s) h = some p)
    (hdur : durationsNear (normalizeTokens s) p = []) :
    h.id ∉ (heuristicParse s habits).1.map (fun c => c.habit_id) ∧
      skipWarning h.name ∈ (heuristicParse s habits).2 := by
  have hm0 : (⟨h, p⟩ : HMatch) ∈ heuristicMatches (normalizeTokens s) habits :=
    mem_heuristicMatches.mpr ⟨h, hmem, hmatch, rfl⟩
  have hm : heuristicMatches (normalizeTokens s) habits ≠ [] := List.ne_nil_of_mem hm0
  constructor
  · intro hin
    simp only [heuristicParse, if_neg hs, if_neg hm] at hin
    rcases List.mem_map.mp hin with ⟨c, hc, hcid⟩
    rcases List.mem_filterMap.mp hc with ⟨m, hmmem, hcontr⟩
    rcases heuristicContribution_eq_some hcontr with ⟨hdne, hid⟩
    rcases mem_heuristicMatches.mp (mem_sortMatches.mp hmmem) with ⟨h', hh', hp', hmh'⟩
    have hsame : h' = h := by
      apply List.inj_on_of_nodup_map hnodup hh' hmem
      rw [← hmh', ← hid, hcid]
    rw [hsame] at hp'
    rw [hmatch] at hp'
    have : m.pos = p := by injection hp' with hpp; exact hpp.symm
    rw [this] at hdne
    exact hdne hdur
  · have hw : heuristicSkipWarning (normalizeTokens s) (⟨h, p⟩ : HMatch) =
        some (skipWarning h.name) := by
      simp [heuristicSkipWarning, hdur]
    simp only [heuristicParse, if_neg hs, if_neg hm]
    exact List.mem_filterMap.mpr ⟨⟨h, p⟩, mem_sortMatches.mpr hm0, hw⟩

/-- Witness for C5 at a concrete input. -/
theorem heuristic_no_duration_skipped_witness :
    sampleYoga.id ∉
        (heuristicParse "i did morning yoga today" [sampleYoga]).1.map (fun c => c.habit_id) ∧
      skipWarning sampleYoga.name ∈
        (heuristicParse "i did morning yoga today" [sampleYoga]).2 :=
  heuristic_no_duration_skipped "i did morning yoga today" [sampleYoga] sampleYoga 2
    (by decide) (by decide) (by decide) rfl rfl

/-- C6: for the text "I did 30 minutes of Reading today" and a catalog
containing a habit named "Reading", `extract` on the heuristic path returns
exactly one contribution, with that habit's id and 30 minutes. -/
theorem heuristic_round_trip_reading :
    extract (.str "I did 30 minutes of Reading today") [sampleYoga, sampleReading]
        none (.response []) =
      .ok ⟨[⟨sampleReading.id, 30⟩], .heuristic, []⟩ := rfl

/-- C7: on the heuristic path (no credential configured) `extract` is a pure,
deterministic function of text and habits — two calls with identical inputs
give identical results, whatever the state of the external AI service. -/
theorem heuristic_path_deterministic (t : InputText) (habits : List HabitRef)
    (ai ai' : AiOutcome) :
    extract t habits none ai = extract t habits none ai' := by
  cases t <;> simp [extract]

/-- C8: whenever a successful `extract` call returns an empty contributions
sequence for a non-empty text and failure context exists (the heuristic path
produced the result, or some AI response entry was rejected), the warnings
sequence is non-empty. -/
theorem extract_empty_contributions_warned (s : String) (habits : List HabitRef)
    (cred : Option String) (ai : AiOutcome) (r : ExtractionResult)
    (hok : extract (.str s) habits cred ai = .ok r) (hs : s ≠ "")
    (hc : r.contributions = [])
    (hfc : r.source = .heuristic ∨ aiRejectedKey habits ai) :
    r.warnings ≠ [] := by
  by_cases h1 : habits = []
  · simp [extract, h1] at hok
  · cases cred with
    | none =>
        simp only [extract, if_neg h1, if_neg hs] at hok
        cases hok
        exact heuristic_empty_warn hs hc
    | some key =>
        cases hai : aiAttempt habits ai with
        | error e =>
            simp only [extract, if_neg h1, if_neg hs, hai] at hok
            cases hok
            simp
        | ok res =>
            simp only [extract, if_neg h1, if_neg hs, hai] at hok
            cases hok
            rcases hfc with hfc | hfc
            · exact absurd hfc (by simp)
            · cases ai with
              | failure e => exact absurd hfc (by simp [aiRejectedKey])
              | response entries =>
                  by_cases hneg : entries.any (fun e => e.2 < 0)
                  · simp [aiAttempt, hneg] at hai
                  · simp only [aiAttempt, if_neg hneg, Except.ok.injEq] at hai
                    subst hai
                    rcases hfc with ⟨e, he, hlook⟩
                    have hw : unknownKeyWarning e.1 ∈ (aiTranslate habits entries).2 := by
                      refine List.mem_filterMap.mpr ⟨e, he, ?_⟩
                      simp [hlook]
                    exact List.ne_nil_of_mem hw

/-- Witness for C8 at a concrete input. -/
theorem extract_empty_contributions_warned_witness :
    (⟨[], .heuristic, [zeroMatchWarning]⟩ : ExtractionResult).warnings ≠ [] :=
  extract_empty_contributions_warned "hello" [sampleReading] none (.response [])
    ⟨[], .heuristic, [zeroMatchWarning]⟩ rfl (by decide) rfl (Or.inl rfl)

/-- C9: for every habit rendered by `renderHabits`, the progress-fill width
is the habit's progress ratio times 100 percent, and a habit whose id has no
entry in the progress-bars response gets width 0. -/
theorem renderHabits_progress_width (habits : List HabitRef) (bars : List BarInfo)
    (h : HabitRef) (hmem : h ∈ habits) :
    renderHabitItem bars h ∈ renderHabits habits bars ∧
      (∀ q : ℚ, buildRatioMap bars h.id = some q →
        (renderHabitItem bars h).widthPercent = q * 100) ∧
      (buildRatioMap bars h.id = none → (renderHabitItem bars h).widthPercent = 0) := by
  refine ⟨?_, ?_, ?_⟩
  · simpa [renderHabits] using List.mem_map_of_mem (renderHabitItem bars) hmem
  · intro q hq
    simp [renderHabitItem, hq]
  · intro hq
    simp [renderHabitItem, hq]

/-- Witness for C9 at concrete inputs: a habit with a bar entry of ratio 1/2
renders at (1/2)·100 percent, and a habit with no bar entry renders at 0. -/
theorem renderHabits_progress_width_witness :
    (renderHabitItem [⟨1, (1 : ℚ)/2⟩] sampleYoga).widthPercent = ((1 : ℚ)/2) * 100 ∧
      (renderHabitItem [] sampleReading).widthPercent = 0 :=
  ⟨(renderHabits_progress_width [sampleYoga] [⟨1, (1 : ℚ)/2⟩] sampleYoga
      (by decide)).2.1 ((1 : ℚ)/2) rfl,
   (renderHabits_progress_width [sampleReading] [] sampleReading (by decide)).2.2 rfl⟩

/-- C10: the service worker serves a cached response whenever one exists —
without touching the network — and forwards the request to the network
exactly when the cache lookup misses. -/
theorem serviceWorker_cache_priority (cacheMatch : SwRequest → Option SwResponse)
    (networkFetch : SwRequest → SwResponse) (req : SwRequest) :
    (∀ r, cacheMatch req = some r →
        swHandleFetch cacheMatch networkFetch req = (r, false)) ∧
      (cacheMatch req = none →
        swHandleFetch cacheMatch networkFetch req = (networkFetch req, true)) := by
  constructor
  · intro r hr
    simp [swHandleFetch, hr]
  · intro hr
    simp [swHandleFetch, hr]

/-- Witness for C10 at concrete inputs: a cache hit is served from the cache
with no network fetch, and a cache miss goes to the network. -/
theorem serviceWorker_cache_priority_witness :
    swHandleFetch (fun _ => some ⟨"cached"⟩) (fun _ => ⟨"network"⟩) ⟨"/"⟩ =
        (⟨"cached"⟩, false) ∧
      swHandleFetch (fun _ => none) (fun _ => ⟨"network"⟩) ⟨"/"⟩ =
        (⟨"network"⟩, true) :=
  ⟨(serviceWorker_cache_priority (fun _ => some ⟨"cached"⟩) (fun _ => ⟨"network"⟩) ⟨"/"⟩).1
      ⟨"cached"⟩ rfl,
   (serviceWorker_cache_priority (fun _ => none) (fun _ => ⟨"network"⟩) ⟨"/"⟩).2 rfl⟩

end HabitApp
